import Mathlib

/-!
Shallow embedding of the SimpleServer stream-server core (src/ss/Server.cpp)
and the example echo request handler (test/main.cpp).

Bytes are modelled as lists of characters.  A request handler invocation is a
pure function from the current view of the inbound buffer to a status, the
bytes it appended to the response sink, and the consumed ("ignore") length —
exactly the contract of AbstractRequestHandler::handle.  The session's inner
processing loop (Session::operator(), the block at Server.cpp:153-189) is
embedded as a fuel-indexed recursion over the view offset, and the session's
read/process/write cycle as a trace-producing function over a finite list of
read completions.
-/

namespace SS

/-- Status codes reported by a request handler, as the session distinguishes
them: Success has failed() == false; SessionError::PartialData is tested for
explicitly; anything else is an unexpected error. -/
inductive HStatus
  | success
  | needMoreData
  | otherError
deriving DecidableEq

/-- Result of a single handler invocation: status, bytes the handler inserted
into the response sink, and the consumed length it reported. -/
structure HandleResult where
  status : HStatus
  response : List Char
  consumed : Nat
deriving DecidableEq

/-- A request handler: the status atSessionStart reports, and the handle
function invoked per processing step. -/
structure Handler where
  startOk : Bool
  handle : List Char → HandleResult

/-- First line of the request including its terminating newline, if one
exists: the match of regex [caret][not-newline]*[newline] used by
EchoReqHandler::handle (test/main.cpp:23-29). -/
def firstLine : List Char → Option (List Char)
  | [] => none
  | c :: rest =>
    if c = '\n' then some ['\n']
    else Option.map (fun l => c :: l) (firstLine rest)

/-- EchoReqHandler::handle (test/main.cpp:20-36): no newline-terminated line
at the start of the request means PartialData with nothing appended and
consumed length left 0; otherwise the first line is echoed and its length is
the consumed length. -/
def echoHandle (request : List Char) : HandleResult :=
  match firstLine request with
  | none => ⟨HStatus.needMoreData, [], 0⟩
  | some l => ⟨HStatus.success, l, l.length⟩

/-- The echo handler as a Handler: atSessionStart always succeeds. -/
def echoHandler : Handler := ⟨true, echoHandle⟩

/-- Outcome of one inner processing loop (Server.cpp:156-188):
either the loop broke with the inbound buffer cleared, or it broke on
PartialData keeping a tail of the inbound buffer, or an unexpected handler
error re-entered the completion routine with an error (which closes the
session).  In every case the bytes accumulated in the outbound buffer are
recorded. -/
inductive LoopResult
  | cleared (res : List Char)
  | keepTail (keep : List Char) (res : List Char)
  | errorClose (res : List Char)
deriving DecidableEq

/-- The inner request-handling loop of Session::operator()
(Server.cpp:156-188), with explicit fuel for structural recursion.  The view
over the unconsumed part of the inbound buffer is reqBuffer.drop offset.
Success with consumed length 0 or at least the view size clears the whole
buffer and breaks; success with a smaller positive consumed length advances
the view and re-invokes the handler; PartialData erases the first
offset + consumed bytes of the buffer and breaks; any other status re-enters
the completion routine with the error. -/
def processLoopFuel (handle : List Char → HandleResult) :
    Nat → List Char → Nat → List Char → LoopResult
  | 0, _, _, res => LoopResult.errorClose res
  | fuel + 1, reqBuffer, offset, res =>
    match (handle (reqBuffer.drop offset)).status with
    | HStatus.success =>
      if (handle (reqBuffer.drop offset)).consumed = 0 ∨
          (reqBuffer.drop offset).length ≤ (handle (reqBuffer.drop offset)).consumed then
        LoopResult.cleared (res ++ (handle (reqBuffer.drop offset)).response)
      else
        processLoopFuel handle fuel reqBuffer
          (offset + (handle (reqBuffer.drop offset)).consumed)
          (res ++ (handle (reqBuffer.drop offset)).response)
    | HStatus.needMoreData =>
      LoopResult.keepTail
        (reqBuffer.drop (offset + (handle (reqBuffer.drop offset)).consumed))
        (res ++ (handle (reqBuffer.drop offset)).response)
    | HStatus.otherError =>
      LoopResult.errorClose (res ++ (handle (reqBuffer.drop offset)).response)

/-- The inner processing loop, with enough fuel to run to its break: every
advancing step consumes at least one byte of the buffer, so
reqBuffer.length + 1 steps always suffice. -/
def processLoop (handle : List Char → HandleResult) (reqBuffer : List Char)
    (offset : Nat) (res : List Char) : LoopResult :=
  processLoopFuel handle (reqBuffer.length + 1) reqBuffer offset res

theorem processLoopFuel_stable (handle : List Char → HandleResult) :
    ∀ f g reqBuffer offset res, reqBuffer.length - offset < f →
      reqBuffer.length - offset < g →
      processLoopFuel handle f reqBuffer offset res =
        processLoopFuel handle g reqBuffer offset res := by
  intro f
  induction f with
  | zero =>
    intro g reqBuffer offset res hf _
    exact absurd hf (Nat.not_lt_zero _)
  | succ f ih =>
    intro g reqBuffer offset res hf hg
    cases g with
    | zero => exact absurd hg (Nat.not_lt_zero _)
    | succ g =>
      simp only [processLoopFuel]
      cases hs : (handle (reqBuffer.drop offset)).status with
      | success =>
        by_cases hc :
            (handle (reqBuffer.drop offset)).consumed = 0 ∨
              (reqBuffer.drop offset).length ≤ (handle (reqBuffer.drop offset)).consumed
        · simp only [if_pos hc]
        · simp only [if_neg hc]
          push_neg at hc
          obtain ⟨hc0, hclt⟩ := hc
          have hlen : (reqBuffer.drop offset).length = reqBuffer.length - offset := by
            simp
          have hc1 : 1 ≤ (handle (reqBuffer.drop offset)).consumed :=
            Nat.one_le_iff_ne_zero.mpr hc0
          apply ih
          · omega
          · omega
      | needMoreData => rfl
      | otherError => rfl

theorem processLoop_clear (handle : List Char → HandleResult)
    (reqBuffer : List Char) (offset : Nat) (res : List Char)
    (hs : (handle (reqBuffer.drop offset)).status = HStatus.success)
    (hc : (handle (reqBuffer.drop offset)).consumed = 0 ∨
      (reqBuffer.drop offset).length ≤ (handle (reqBuffer.drop offset)).consumed) :
    processLoop handle reqBuffer offset res =
      LoopResult.cleared (res ++ (handle (reqBuffer.drop offset)).response) := by
  show processLoopFuel handle (reqBuffer.length + 1) reqBuffer offset res = _
  simp only [processLoopFuel, hs, if_pos hc]

theorem processLoop_advance (handle : List Char → HandleResult)
    (reqBuffer : List Char) (offset : Nat) (res : List Char)
    (hs : (handle (reqBuffer.drop offset)).status = HStatus.success)
    (h0 : 0 < (handle (reqBuffer.drop offset)).consumed)
    (hlt : (handle (reqBuffer.drop offset)).consumed < (reqBuffer.drop offset).length) :
    processLoop handle reqBuffer offset res =
      processLoop handle reqBuffer (offset + (handle (reqBuffer.drop offset)).consumed)
        (res ++ (handle (reqBuffer.drop offset)).response) := by
  have hc : ¬((handle (reqBuffer.drop offset)).consumed = 0 ∨
      (reqBuffer.drop offset).length ≤ (handle (reqBuffer.drop offset)).consumed) := by
    push_neg
    exact ⟨Nat.pos_iff_ne_zero.mp h0, hlt⟩
  have hlen : (reqBuffer.drop offset).length = reqBuffer.length - offset := by simp
  show processLoopFuel handle (reqBuffer.length + 1) reqBuffer offset res = _
  simp only [processLoopFuel, hs, if_neg hc]
  apply processLoopFuel_stable
  · omega
  · omega

theorem processLoop_keepTail (handle : List Char → HandleResult)
    (reqBuffer : List Char) (offset : Nat) (res : List Char)
    (hs : (handle (reqBuffer.drop offset)).status = HStatus.needMoreData) :
    processLoop handle reqBuffer offset res =
      LoopResult.keepTail
        (reqBuffer.drop (offset + (handle (reqBuffer.drop offset)).consumed))
        (res ++ (handle (reqBuffer.drop offset)).response) := by
  show processLoopFuel handle (reqBuffer.length + 1) reqBuffer offset res = _
  simp only [processLoopFuel, hs]

theorem processLoop_error (handle : List Char → HandleResult)
    (reqBuffer : List Char) (offset : Nat) (res : List Char)
    (hs : (handle (reqBuffer.drop offset)).status = HStatus.otherError) :
    processLoop handle reqBuffer offset res =
      LoopResult.errorClose (res ++ (handle (reqBuffer.drop offset)).response) := by
  show processLoopFuel handle (reqBuffer.length + 1) reqBuffer offset res = _
  simp only [processLoopFuel, hs]

/-- Observable events of one session, in program order: the atSessionStart
callback, a completed read, a completed write of the outbound buffer, the
atSessionClose callback, the transport shutdown and the socket close
(Session::atClose, Server.cpp:98-113). -/
inductive SessionEvent
  | sessionStart
  | read
  | write (bytes : List Char)
  | sessionClose
  | shutdown
  | closeSocket
deriving DecidableEq

/-- The close sequence run by the error branch of Session::operator()
(Server.cpp:121-135) via Session::atClose: atSessionClose, then shutdown,
then close. -/
def closeSeq : List SessionEvent :=
  [SessionEvent.sessionClose, SessionEvent.shutdown, SessionEvent.closeSocket]

/-- How one async_read completes: with appended data, with end-of-stream,
with operation-aborted (external close), or with another transport error. -/
inductive ReadOutcome
  | data (chunk : List Char)
  | eof
  | canceled
  | readError
deriving DecidableEq

/-- The session read/process/write cycle (the reenter block of
Session::operator(), Server.cpp:137-211), driven by a finite list of read
completions.  A completed read appends its chunk to the inbound buffer and
runs the processing loop over the whole buffer; afterwards a non-empty
outbound buffer is written in full and cleared, an empty one skips the
write; an unexpected handler error, end-of-stream, cancellation or transport
error runs the close sequence.  An exhausted outcome list is a read that
never completes (silent peer): the trace simply ends, still pending. -/
def sessionLoop (h : Handler) : List Char → List ReadOutcome → List SessionEvent
  | _, [] => []
  | reqBuffer, ReadOutcome.data chunk :: rest =>
    SessionEvent.read ::
      (match processLoop h.handle (reqBuffer ++ chunk) 0 [] with
       | LoopResult.cleared res =>
         (if res = [] then [] else [SessionEvent.write res]) ++ sessionLoop h [] rest
       | LoopResult.keepTail keep res =>
         (if res = [] then [] else [SessionEvent.write res]) ++ sessionLoop h keep rest
       | LoopResult.errorClose _ => closeSeq)
  | _, ReadOutcome.eof :: _ => closeSeq
  | _, ReadOutcome.canceled :: _ => closeSeq
  | _, ReadOutcome.readError :: _ => closeSeq

/-- Session::start (Server.cpp:61-77): atSessionStart is invoked first; on
failure the method returns without ever entering the I/O coroutine, so no
read, write or close activity follows. -/
def sessionTrace (h : Handler) (outs : List ReadOutcome) : List SessionEvent :=
  SessionEvent.sessionStart :: (if h.startOk then sessionLoop h [] outs else [])

/-- All bytes the session ever writes to its transport, in order. -/
def writesOf : List SessionEvent → List Char
  | [] => []
  | SessionEvent.write bs :: rest => bs ++ writesOf rest
  | _ :: rest => writesOf rest

/-- True when the session cycle reaches its close sequence: the read stream
ends in a non-data completion (end-of-stream, cancellation or transport
error), or some processing pass ends in an unexpected handler error.  This
mirrors the recursion of sessionLoop step by step. -/
def sessionTerminates (h : Handler) : List Char → List ReadOutcome → Bool
  | _, [] => false
  | reqBuffer, ReadOutcome.data chunk :: rest =>
    match processLoop h.handle (reqBuffer ++ chunk) 0 [] with
    | LoopResult.cleared _ => sessionTerminates h [] rest
    | LoopResult.keepTail keep _ => sessionTerminates h keep rest
    | LoopResult.errorClose _ => true
  | _, ReadOutcome.eof :: _ => true
  | _, ReadOutcome.canceled :: _ => true
  | _, ReadOutcome.readError :: _ => true

/-- How one async_accept completes: a new connection whose completion
handling either succeeds or throws, a cancellation, or another accept
error. -/
inductive AcceptOutcome
  | accepted (handlingThrows : Bool)
  | canceled
  | acceptError
deriving DecidableEq

/-- Observable events of the accept loop (ServerImplStream::operator(),
Server.cpp:291-339). -/
inductive ServerEvent
  | acceptIssued
  | sessionStarted
  | exceptionLogged
  | acceptCanceled
  | acceptErrorLogged
deriving DecidableEq

/-- The accept loop: each accepted connection is handled inside a try/catch
(an exception is logged and swallowed), then the loop re-enters and issues
the next accept; a cancelled accept ends the loop silently, any other accept
error is logged and ends the loop. -/
def acceptLoop : List AcceptOutcome → List ServerEvent
  | [] => []
  | AcceptOutcome.accepted throws :: rest =>
    (if throws then ServerEvent.exceptionLogged else ServerEvent.sessionStarted) ::
      ServerEvent.acceptIssued :: acceptLoop rest
  | AcceptOutcome.canceled :: _ => [ServerEvent.acceptCanceled]
  | AcceptOutcome.acceptError :: _ => [ServerEvent.acceptErrorLogged]

/-- State of a session socket as Session::close observes it: whether the OS
handle is open and whether a cancel of outstanding operations has been
requested. -/
structure SocketState where
  isOpen : Bool
  cancelRequested : Bool
deriving DecidableEq

/-- Session::close (Server.cpp:79-94): on an already-closed socket it only
logs a warning and returns (second component false: no cancel issued);
otherwise it cancels all outstanding async operations on the socket, which
stays open until atClose runs. -/
def closeSession (s : SocketState) : SocketState × Bool :=
  if s.isOpen then (⟨s.isOpen, true⟩, true) else (s, false)

/-- One decimal digit, as regex backslash-d matches it. -/
def isDigitChar (c : Char) : Bool :=
  decide ('0' ≤ c) && decide (c ≤ '9')

/-- A digit's numeric value. -/
def digitVal (c : Char) : Nat := c.toNat - '0'.toNat

/-- std::stoi on a string of decimal digits. -/
def digitsToNat (p : List Char) : Nat :=
  p.foldl (fun acc c => acc * 10 + digitVal c) 0

/-- True when the list holds a colon. -/
def hasColon : List Char → Bool
  | [] => false
  | c :: rest => if c = ':' then true else hasColon rest

/-- Split at the string's unique colon.  The host part of regex
([caret-colon]+) cannot hold a colon and the port part (digits) cannot
either, so the whole string matches exactly when it holds one colon with the
host before it and the port after it. -/
def splitOnColon : List Char → Option (List Char × List Char)
  | [] => none
  | c :: rest =>
    if c = ':' then
      if hasColon rest then none else some ([], rest)
    else
      Option.map (fun hp => (c :: hp.1, hp.2)) (splitOnColon rest)

/-- The host-and-port regex match of ServerBuilder::build
(Server.cpp:389-397): the whole endpoint string must be a non-empty
colon-free host, a colon, and one to five decimal digits. -/
def parseHostPort (s : List Char) : Option (List Char × List Char) :=
  match splitOnColon s with
  | none => none
  | some (h, p) =>
    if h ≠ [] ∧ p ≠ [] ∧ p.length ≤ 5 ∧ p.all isDigitChar then some (h, p) else none

/-- A resolved TCP listen endpoint: the validated host literal and the port
value actually given to the endpoint constructor. -/
structure TcpEndpoint where
  host : List Char
  port : Nat
deriving DecidableEq

/-- The TCP branch of ServerBuilder::build (Server.cpp:388-414),
parameterized by the address-literal validator (asio make_address, an
external library call).  A regex mismatch or an invalid address throws
std::invalid_argument to the caller (modelled as none); otherwise the
endpoint is built from the parsed address and std::stoi of the port digits,
which the endpoint constructor narrows to an unsigned 16-bit port. -/
def buildTcp (isValidAddr : List Char → Bool) (endpoint : List Char) :
    Option TcpEndpoint :=
  match parseHostPort endpoint with
  | none => none
  | some (h, p) =>
    if isValidAddr h then some ⟨h, digitsToNat p % 65536⟩ else none

theorem firstLine_length_le : ∀ (req l : List Char), firstLine req = some l →
    l.length ≤ req.length := by
  intro req
  induction req with
  | nil => intro l h; simp [firstLine] at h
  | cons c rest ih =>
    intro l h
    by_cases hc : c = '\n'
    · simp only [firstLine, if_pos hc, Option.some.injEq] at h
      subst h
      simp
    · simp only [firstLine, if_neg hc, Option.map_eq_some'] at h
      obtain ⟨l2, hl2, rfl⟩ := h
      have := ih l2 hl2
      simp only [List.length_cons]
      omega

theorem sessionLoop_shape (h : Handler) :
    ∀ outs reqBuffer, sessionTerminates h reqBuffer outs = true →
      ∃ mid, sessionLoop h reqBuffer outs = mid ++ closeSeq ∧
        ∀ e ∈ mid, e = SessionEvent.read ∨ ∃ bs, e = SessionEvent.write bs := by
  intro outs
  induction outs with
  | nil => intro reqBuffer h0; simp [sessionTerminates] at h0
  | cons o rest ih =>
    intro reqBuffer hterm
    cases o with
    | data chunk =>
      cases hp : processLoop h.handle (reqBuffer ++ chunk) 0 [] with
      | cleared res =>
        have hterm2 : sessionTerminates h [] rest = true := by
          simpa [sessionTerminates, hp] using hterm
        obtain ⟨mid, hmid, hben⟩ := ih [] hterm2
        refine ⟨SessionEvent.read ::
          ((if res = [] then [] else [SessionEvent.write res]) ++ mid), ?_, ?_⟩
        · simp [sessionLoop, hp, hmid]
        · intro e he
          simp only [List.mem_cons, List.mem_append] at he
          rcases he with rfl | he
          · exact Or.inl rfl
          rcases he with he | he
          · by_cases hres : res = []
            · simp [hres] at he
            · simp only [if_neg hres, List.mem_singleton] at he
              exact Or.inr ⟨res, he⟩
          · exact hben e he
      | keepTail keep res =>
        have hterm2 : sessionTerminates h keep rest = true := by
          simpa [sessionTerminates, hp] using hterm
        obtain ⟨mid, hmid, hben⟩ := ih keep hterm2
        refine ⟨SessionEvent.read ::
          ((if res = [] then [] else [SessionEvent.write res]) ++ mid), ?_, ?_⟩
        · simp [sessionLoop, hp, hmid]
        · intro e he
          simp only [List.mem_cons, List.mem_append] at he
          rcases he with rfl | he
          · exact Or.inl rfl
          rcases he with he | he
          · by_cases hres : res = []
            · simp [hres] at he
            · simp only [if_neg hres, List.mem_singleton] at he
              exact Or.inr ⟨res, he⟩
          · exact hben e he
      | errorClose staged =>
        refine ⟨[SessionEvent.read], ?_, ?_⟩
        · simp [sessionLoop, hp]
        · intro e he
          simp only [List.mem_singleton] at he
          exact Or.inl he
    | eof => exact ⟨[], by simp [sessionLoop], by simp⟩
    | canceled => exact ⟨[], by simp [sessionLoop], by simp⟩
    | readError => exact ⟨[], by simp [sessionLoop], by simp⟩

theorem splitOnColon_sound : ∀ (s h p : List Char),
    splitOnColon s = some (h, p) →
    s = h ++ ':' :: p ∧ hasColon h = false ∧ hasColon p = false := by
  intro s
  induction s with
  | nil => intro h p hsp; simp [splitOnColon] at hsp
  | cons c rest ih =>
    intro h p hsp
    simp only [splitOnColon] at hsp
    by_cases hc : c = ':'
    · rw [if_pos hc] at hsp
      by_cases hr : hasColon rest = true
      · rw [if_pos hr] at hsp
        exact absurd hsp (by simp)
      · rw [if_neg hr] at hsp
        have heq := Option.some.inj hsp
        have hh : ([] : List Char) = h := congrArg Prod.fst heq
        have hp2 : rest = p := congrArg Prod.snd heq
        subst hc
        rw [← hh, ← hp2]
        refine ⟨rfl, rfl, ?_⟩
        simpa using hr
    · rw [if_neg hc] at hsp
      cases hrec : splitOnColon rest with
      | none => rw [hrec] at hsp; simp at hsp
      | some hp2 =>
        obtain ⟨h2, p2⟩ := hp2
        rw [hrec] at hsp
        simp only [Option.map_some'] at hsp
        have heq := Option.some.inj hsp
        have hh : c :: h2 = h := congrArg Prod.fst heq
        have hp3 : p2 = p := congrArg Prod.snd heq
        obtain ⟨hs1, hch, hcp⟩ := ih h2 p2 hrec
        rw [← hh, ← hp3]
        refine ⟨by rw [hs1]; rfl, ?_, hcp⟩
        simp [hasColon, hc, hch]

theorem splitOnColon_complete : ∀ (h p : List Char), hasColon h = false →
    hasColon p = false → splitOnColon (h ++ ':' :: p) = some (h, p) := by
  intro h
  induction h with
  | nil =>
    intro p _ hp
    simp [splitOnColon, hp]
  | cons c h2 ih =>
    intro p hh hp
    have hc : ¬ c = ':' := by
      intro hceq
      rw [hceq] at hh
      simp [hasColon] at hh
    have hh2 : hasColon h2 = false := by
      simpa [hasColon, hc] using hh
    simp [splitOnColon, hc, ih p hh2 hp]

theorem all_digits_no_colon : ∀ p : List Char, p.all isDigitChar = true →
    hasColon p = false := by
  intro p
  induction p with
  | nil => intro _; rfl
  | cons c rest ih =>
    intro hall
    simp only [List.all_cons, Bool.and_eq_true] at hall
    obtain ⟨hd, hrest⟩ := hall
    have hc : ¬ c = ':' := by
      intro hceq
      subst hceq
      exact absurd hd (by decide)
    simp [hasColon, hc, ih hrest]

theorem parseHostPort_sound (s h p : List Char)
    (hsp : parseHostPort s = some (h, p)) :
    s = h ++ ':' :: p ∧ h ≠ [] ∧ hasColon h = false ∧ p ≠ [] ∧
      p.length ≤ 5 ∧ p.all isDigitChar = true := by
  unfold parseHostPort at hsp
  cases hsc : splitOnColon s with
  | none => rw [hsc] at hsp; exact absurd hsp (by simp)
  | some hp2 =>
    obtain ⟨h2, p2⟩ := hp2
    rw [hsc] at hsp
    have hsp3 : (if h2 ≠ [] ∧ p2 ≠ [] ∧ p2.length ≤ 5 ∧ p2.all isDigitChar = true
        then some (h2, p2) else none) = some (h, p) := hsp
    by_cases hcond : h2 ≠ [] ∧ p2 ≠ [] ∧ p2.length ≤ 5 ∧ p2.all isDigitChar = true
    · rw [if_pos hcond] at hsp3
      have heq := Option.some.inj hsp3
      obtain ⟨hc1, hc2, hc3, hc4⟩ := hcond
      obtain ⟨hs1, hch, _⟩ := splitOnColon_sound s h2 p2 hsc
      injection heq with hh hp3
      subst hh
      subst hp3
      exact ⟨hs1, hc1, hch, hc2, hc3, hc4⟩
    · rw [if_neg hcond] at hsp3
      exact absurd hsp3 (by simp)

theorem parseHostPort_complete (h p : List Char) (hne : h ≠ [])
    (hch : hasColon h = false) (hpne : p ≠ []) (hplen : p.length ≤ 5)
    (hpd : p.all isDigitChar = true) :
    parseHostPort (h ++ ':' :: p) = some (h, p) := by
  unfold parseHostPort
  rw [splitOnColon_complete h p hch (all_digits_no_colon p hpd)]
  show (if h ≠ [] ∧ p ≠ [] ∧ p.length ≤ 5 ∧ p.all isDigitChar = true
    then some (h, p) else none) = some (h, p)
  rw [if_pos ⟨hne, hpne, hplen, hpd⟩]

theorem count_shape (a : SessionEvent) (mid : List SessionEvent)
    (hben : ∀ e ∈ mid, e = SessionEvent.read ∨ ∃ bs, e = SessionEvent.write bs)
    (ha : a ≠ SessionEvent.read) (hw : ∀ bs, a ≠ SessionEvent.write bs) :
    List.count a (SessionEvent.sessionStart :: (mid ++ closeSeq)) =
      List.count a (SessionEvent.sessionStart :: closeSeq) := by
  have hma : List.count a mid = 0 := by
    rw [List.count_eq_zero]
    intro hmem
    rcases hben a hmem with h1 | ⟨bs, h1⟩
    · exact ha h1
    · exact hw bs h1
  rw [List.count_cons, List.count_cons, List.count_append, hma]
  simp

/-- A handler whose atSessionStart reports a failure. -/
def startFailHandler : Handler := ⟨false, echoHandle⟩

/-- A handler whose handle always reports an unexpected error after staging
two bytes of output. -/
def errHandler : Handler := ⟨true, fun _ => ⟨HStatus.otherError, ['o','o'], 0⟩⟩

/-- A model of asio make_address accepting the literal 127.0.0.1. -/
def addrOracle (h : List Char) : Bool :=
  decide (h = ['1','2','7','.','0','.','0','.','1'])

/-- C1 (amended): when the handler reports partial data, the session keeps
only the unconsumed tail of the inbound buffer — it drops the first
offset-plus-consumed bytes — and breaks the inner loop with the outbound
bytes staged so far; the write stage then flushes whatever was staged
earlier in the pass (no write when nothing was staged).  For the echo
handler, input hel stages no output, the three bytes are retained, and the
session returns to its read wait with no write event. -/
theorem need_more_data_keeps_tail (handle : List Char → HandleResult)
    (reqBuffer : List Char) (offset : Nat) (res : List Char)
    (hs : (handle (reqBuffer.drop offset)).status = HStatus.needMoreData) :
    processLoop handle reqBuffer offset res =
      LoopResult.keepTail
        (reqBuffer.drop (offset + (handle (reqBuffer.drop offset)).consumed))
        (res ++ (handle (reqBuffer.drop offset)).response) ∧
    processLoop echoHandle ['h','e','l'] 0 [] =
      LoopResult.keepTail ['h','e','l'] [] ∧
    sessionTrace echoHandler [ReadOutcome.data ['h','e','l'], ReadOutcome.eof] =
      [SessionEvent.sessionStart, SessionEvent.read, SessionEvent.sessionClose,
       SessionEvent.shutdown, SessionEvent.closeSocket] :=
  ⟨processLoop_keepTail handle reqBuffer offset res hs, by decide, by decide⟩

theorem need_more_data_keeps_tail_witness :
    processLoop echoHandle ['h','e','l'] 0 [] =
      LoopResult.keepTail
        (List.drop (0 + (echoHandle (List.drop 0 ['h','e','l'])).consumed)
          ['h','e','l'])
        ([] ++ (echoHandle (List.drop 0 ['h','e','l'])).response) :=
  (need_more_data_keeps_tail echoHandle ['h','e','l'] 0 [] (by decide)).1

/-- C1, counterexample to the claim as stated: a partial-data signal does
not always return to the read wait without writing.  With the echo handler
and a single read a-newline-hel, the first invocation echoes the line, the
second reports partial data, and the session then writes the staged bytes
before reading again. -/
theorem need_more_data_write_cx :
    processLoop echoHandle ['a','\n','h','e','l'] 0 [] =
      LoopResult.keepTail ['h','e','l'] ['a','\n'] ∧
    sessionTrace echoHandler
        [ReadOutcome.data ['a','\n','h','e','l'], ReadOutcome.eof] =
      [SessionEvent.sessionStart, SessionEvent.read,
       SessionEvent.write ['a','\n'], SessionEvent.sessionClose,
       SessionEvent.shutdown, SessionEvent.closeSocket] := by decide

/-- C2: on handler success with a consumed length of zero or at least the
remaining view size, the whole inbound buffer is cleared and the inner loop
breaks; on success with a positive consumed length smaller than the view,
the view advances by exactly that count and the handler is re-invoked at
once, the staged response appended to the outbound bytes in call order. -/
theorem processing_loop_policy (handle : List Char → HandleResult)
    (reqBuffer : List Char) (offset : Nat) (res : List Char)
    (hs : (handle (reqBuffer.drop offset)).status = HStatus.success) :
    ((handle (reqBuffer.drop offset)).consumed = 0 ∨
        (reqBuffer.drop offset).length ≤ (handle (reqBuffer.drop offset)).consumed →
      processLoop handle reqBuffer offset res =
        LoopResult.cleared (res ++ (handle (reqBuffer.drop offset)).response)) ∧
    (0 < (handle (reqBuffer.drop offset)).consumed →
      (handle (reqBuffer.drop offset)).consumed < (reqBuffer.drop offset).length →
      processLoop handle reqBuffer offset res =
        processLoop handle reqBuffer
          (offset + (handle (reqBuffer.drop offset)).consumed)
          (res ++ (handle (reqBuffer.drop offset)).response)) :=
  ⟨fun hc => processLoop_clear handle reqBuffer offset res hs hc,
   fun h0 hlt => processLoop_advance handle reqBuffer offset res hs h0 hlt⟩

theorem processing_loop_policy_witness :
    processLoop echoHandle ['a','\n','b','\n'] 0 [] =
      processLoop echoHandle ['a','\n','b','\n']
        (0 + (echoHandle (List.drop 0 ['a','\n','b','\n'])).consumed)
        ([] ++ (echoHandle (List.drop 0 ['a','\n','b','\n'])).response) ∧
    processLoop echoHandle ['a','\n','b','\n'] 2 ['a','\n'] =
      LoopResult.cleared
        (['a','\n'] ++ (echoHandle (List.drop 2 ['a','\n','b','\n'])).response) :=
  ⟨(processing_loop_policy echoHandle ['a','\n','b','\n'] 0 [] (by decide)).2
      (by decide) (by decide),
   (processing_loop_policy echoHandle ['a','\n','b','\n'] 2 ['a','\n'] (by decide)).1
      (by decide)⟩

/-- C3 (amended): atSessionStart happens exactly once and first.  For a
session whose atSessionStart succeeds and whose cycle terminates — the read
stream ends in end-of-stream, cancellation or a transport error, or a
processing pass ends in an unexpected handler error — the trace is exactly
one atSessionStart, then only reads and writes, then exactly one
atSessionClose followed by the transport shutdown and socket close, each
exactly once.  If atSessionStart fails, the trace is only the start
callback: atSessionClose never runs and the transport is never shut down or
closed (see the counterexample against the original claim). -/
theorem session_lifecycle_order (h : Handler) (outs : List ReadOutcome)
    (hterm : sessionTerminates h [] outs = true) :
    (h.startOk = true →
      ∃ mid, sessionTrace h outs = SessionEvent.sessionStart :: (mid ++ closeSeq) ∧
        (∀ e ∈ mid, e = SessionEvent.read ∨ ∃ bs, e = SessionEvent.write bs) ∧
        List.count SessionEvent.sessionStart (sessionTrace h outs) = 1 ∧
        List.count SessionEvent.sessionClose (sessionTrace h outs) = 1 ∧
        List.count SessionEvent.shutdown (sessionTrace h outs) = 1 ∧
        List.count SessionEvent.closeSocket (sessionTrace h outs) = 1) ∧
    (h.startOk = false →
      sessionTrace h outs = [SessionEvent.sessionStart] ∧
      List.count SessionEvent.sessionStart (sessionTrace h outs) = 1 ∧
      List.count SessionEvent.sessionClose (sessionTrace h outs) = 0 ∧
      SessionEvent.shutdown ∉ sessionTrace h outs ∧
      SessionEvent.closeSocket ∉ sessionTrace h outs) := by
  constructor
  · intro hstart
    obtain ⟨mid, hmid, hben⟩ := sessionLoop_shape h outs [] hterm
    have htr : sessionTrace h outs = SessionEvent.sessionStart :: (mid ++ closeSeq) := by
      simp [sessionTrace, hstart, hmid]
    refine ⟨mid, htr, hben, ?_, ?_, ?_, ?_⟩
    · rw [htr, count_shape _ mid hben (by decide)
        (fun bs hx => SessionEvent.noConfusion hx)]
      decide
    · rw [htr, count_shape _ mid hben (by decide)
        (fun bs hx => SessionEvent.noConfusion hx)]
      decide
    · rw [htr, count_shape _ mid hben (by decide)
        (fun bs hx => SessionEvent.noConfusion hx)]
      decide
    · rw [htr, count_shape _ mid hben (by decide)
        (fun bs hx => SessionEvent.noConfusion hx)]
      decide
  · intro hstart
    have htr : sessionTrace h outs = [SessionEvent.sessionStart] := by
      simp [sessionTrace, hstart]
    refine ⟨htr, ?_, ?_, ?_, ?_⟩
    · rw [htr]; decide
    · rw [htr]; decide
    · rw [htr]; simp
    · rw [htr]; simp

theorem session_lifecycle_order_witness :
    (∃ mid, sessionTrace errHandler [ReadOutcome.data ['x']] =
        SessionEvent.sessionStart :: (mid ++ closeSeq) ∧
      (∀ e ∈ mid, e = SessionEvent.read ∨ ∃ bs, e = SessionEvent.write bs) ∧
      List.count SessionEvent.sessionStart
        (sessionTrace errHandler [ReadOutcome.data ['x']]) = 1 ∧
      List.count SessionEvent.sessionClose
        (sessionTrace errHandler [ReadOutcome.data ['x']]) = 1 ∧
      List.count SessionEvent.shutdown
        (sessionTrace errHandler [ReadOutcome.data ['x']]) = 1 ∧
      List.count SessionEvent.closeSocket
        (sessionTrace errHandler [ReadOutcome.data ['x']]) = 1) ∧
    (sessionTrace startFailHandler [ReadOutcome.eof] = [SessionEvent.sessionStart] ∧
      List.count SessionEvent.sessionStart
        (sessionTrace startFailHandler [ReadOutcome.eof]) = 1 ∧
      List.count SessionEvent.sessionClose
        (sessionTrace startFailHandler [ReadOutcome.eof]) = 0 ∧
      SessionEvent.shutdown ∉ sessionTrace startFailHandler [ReadOutcome.eof] ∧
      SessionEvent.closeSocket ∉ sessionTrace startFailHandler [ReadOutcome.eof]) :=
  ⟨(session_lifecycle_order errHandler [ReadOutcome.data ['x']] (by decide)).1 rfl,
   (session_lifecycle_order startFailHandler [ReadOutcome.eof] (by decide)).2 rfl⟩

/-- C3, counterexample to the claim as stated: when atSessionStart reports a
failure the session never runs its close sequence, so for that accepted
connection atSessionClose is invoked zero times, not exactly once. -/
theorem session_lifecycle_start_failure_cx :
    List.count SessionEvent.sessionClose
      (sessionTrace startFailHandler [ReadOutcome.eof]) = 0 ∧
    List.count SessionEvent.sessionStart
      (sessionTrace startFailHandler [ReadOutcome.eof]) = 1 := by decide

/-- C4 (amended): the TCP branch of build succeeds exactly on endpoint
strings of the shape host-colon-digits with a non-empty colon-free host the
address validator accepts and one to five decimal digits of port; the port
value is std::stoi of the digits reduced modulo 2 to the 16, with no
1-to-65535 range check.  Mismatch or an invalid address yields a
configuration failure returned to the caller. -/
theorem tcp_build_characterization (isValidAddr : List Char → Bool)
    (endpoint : List Char) (e : TcpEndpoint) :
    buildTcp isValidAddr endpoint = some e ↔
      ∃ h p, endpoint = h ++ ':' :: p ∧ h ≠ [] ∧ hasColon h = false ∧
        p ≠ [] ∧ p.length ≤ 5 ∧ p.all isDigitChar = true ∧
        isValidAddr h = true ∧ e = ⟨h, digitsToNat p % 65536⟩ := by
  constructor
  · intro hb
    unfold buildTcp at hb
    cases hsp : parseHostPort endpoint with
    | none => rw [hsp] at hb; exact absurd hb (by simp)
    | some hp2 =>
      obtain ⟨h, p⟩ := hp2
      rw [hsp] at hb
      have hb2 : (if isValidAddr h = true
          then some (⟨h, digitsToNat p % 65536⟩ : TcpEndpoint) else none) = some e := hb
      by_cases hv : isValidAddr h = true
      · rw [if_pos hv] at hb2
        have he := (Option.some.inj hb2).symm
        obtain ⟨hs1, h1, h2, h3, h4, h5⟩ := parseHostPort_sound endpoint h p hsp
        exact ⟨h, p, hs1, h1, h2, h3, h4, h5, hv, he⟩
      · rw [if_neg hv] at hb2
        exact absurd hb2 (by simp)
  · rintro ⟨h, p, rfl, h1, h2, h3, h4, h5, hv, rfl⟩
    unfold buildTcp
    rw [parseHostPort_complete h p h1 h2 h3 h4 h5]
    show (if isValidAddr h = true
      then some (⟨h, digitsToNat p % 65536⟩ : TcpEndpoint) else none) =
        some ⟨h, digitsToNat p % 65536⟩
    rw [if_pos hv]

/-- C4, counterexample to the claim as stated: the port digits are only
checked for being one to five digits, never for the range 1 to 65535 —
under a validator accepting 127.0.0.1, the endpoint string 127.0.0.1:0
builds successfully with port 0. -/
theorem tcp_build_port_zero_cx :
    buildTcp addrOracle ['1','2','7','.','0','.','0','.','1',':','0'] =
      some ⟨['1','2','7','.','0','.','0','.','1'], 0⟩ ∧
    ¬(1 ≤ (0 : Nat)) := by decide

/-- C5: delivering hel and then lo-newline in two reads over one session
produces exactly the same written output bytes as delivering hello-newline
in a single read — nothing is lost or duplicated across the split. -/
theorem split_read_equivalence :
    writesOf (sessionTrace echoHandler
        [ReadOutcome.data ['h','e','l'], ReadOutcome.data ['l','o','\n'],
         ReadOutcome.eof]) =
      writesOf (sessionTrace echoHandler
        [ReadOutcome.data ['h','e','l','l','o','\n'], ReadOutcome.eof]) := by decide

/-- C6: the echo handler applied to hello-newline reports success, appends
exactly hello-newline to the response sink and sets the consumed length to
6; and on every request it never claims to consume more bytes than the view
offers. -/
theorem echo_handle_spec :
    echoHandle ['h','e','l','l','o','\n'] =
      ⟨HStatus.success, ['h','e','l','l','o','\n'], 6⟩ ∧
    ∀ req : List Char, (echoHandle req).consumed ≤ req.length := by
  refine ⟨by decide, ?_⟩
  intro req
  cases hfl : firstLine req with
  | none => simp [echoHandle, hfl]
  | some l =>
    simp only [echoHandle, hfl]
    exact firstLine_length_le req l hfl

/-- C7: when a processing pass ends in an unexpected handler error, the
session abandons the pass and runs exactly the same close sequence as an
unexpected transport error; the staged outbound bytes are discarded — no
write event ever occurs — and the remaining read stream is ignored. -/
theorem handler_error_closes_session (h : Handler) (reqBuffer chunk : List Char)
    (rest : List ReadOutcome) (staged : List Char)
    (he : processLoop h.handle (reqBuffer ++ chunk) 0 [] =
      LoopResult.errorClose staged) :
    sessionLoop h reqBuffer (ReadOutcome.data chunk :: rest) =
      SessionEvent.read :: closeSeq ∧
    (∀ bs, SessionEvent.write bs ∉
      sessionLoop h reqBuffer (ReadOutcome.data chunk :: rest)) ∧
    sessionLoop h reqBuffer (ReadOutcome.readError :: rest) = closeSeq := by
  have h1 : sessionLoop h reqBuffer (ReadOutcome.data chunk :: rest) =
      SessionEvent.read :: closeSeq := by
    simp [sessionLoop, he]
  refine ⟨h1, ?_, by simp [sessionLoop]⟩
  intro bs
  rw [h1]
  simp [closeSeq]

theorem handler_error_closes_session_witness :
    sessionLoop errHandler [] [ReadOutcome.data ['x']] =
      SessionEvent.read :: closeSeq :=
  (handler_error_closes_session errHandler [] ['x'] [] ['o','o'] (by decide)).1

/-- C8: an exception thrown while handling a completed accept is caught and
logged and the next accept is still issued with the loop continuing over the
remaining completions; a cancelled accept ends the loop silently and any
other accept error is logged and ends the loop. -/
theorem accept_loop_error_policy (rest : List AcceptOutcome) :
    acceptLoop (AcceptOutcome.accepted true :: rest) =
      ServerEvent.exceptionLogged :: ServerEvent.acceptIssued :: acceptLoop rest ∧
    ServerEvent.acceptIssued ∈ acceptLoop (AcceptOutcome.accepted true :: rest) ∧
    acceptLoop (AcceptOutcome.accepted false :: rest) =
      ServerEvent.sessionStarted :: ServerEvent.acceptIssued :: acceptLoop rest ∧
    acceptLoop (AcceptOutcome.canceled :: rest) = [ServerEvent.acceptCanceled] ∧
    acceptLoop (AcceptOutcome.acceptError :: rest) =
      [ServerEvent.acceptErrorLogged] := by
  refine ⟨by simp [acceptLoop], ?_, by simp [acceptLoop], by simp [acceptLoop],
    by simp [acceptLoop]⟩
  simp [acceptLoop]

/-- C9: when atSessionStart reports failure the session trace is just the
start callback — no read is ever issued, nothing is ever written, and the
transport is neither shut down nor closed, so the socket stays open but
unused. -/
theorem start_failure_no_io (h : Handler) (outs : List ReadOutcome)
    (hs : h.startOk = false) :
    sessionTrace h outs = [SessionEvent.sessionStart] ∧
    SessionEvent.read ∉ sessionTrace h outs ∧
    (∀ bs, SessionEvent.write bs ∉ sessionTrace h outs) ∧
    SessionEvent.shutdown ∉ sessionTrace h outs ∧
    SessionEvent.closeSocket ∉ sessionTrace h outs := by
  have h1 : sessionTrace h outs = [SessionEvent.sessionStart] := by
    simp [sessionTrace, hs]
  refine ⟨h1, ?_, ?_, ?_, ?_⟩
  · rw [h1]; simp
  · intro bs; rw [h1]; simp
  · rw [h1]; simp
  · rw [h1]; simp

theorem start_failure_no_io_witness :
    sessionTrace startFailHandler [ReadOutcome.eof] = [SessionEvent.sessionStart] :=
  (start_failure_no_io startFailHandler [ReadOutcome.eof] rfl).1

/-- C10: Session close on an already-closed socket is a no-op beyond
logging — it issues no cancel and leaves the state unchanged, so a repeated
close on the same session gives the same result. -/
theorem close_on_closed_session_noop (s : SocketState) (h : s.isOpen = false) :
    closeSession s = (s, false) ∧
    closeSession (closeSession s).1 = (s, false) := by
  have h1 : closeSession s = (s, false) := by simp [closeSession, h]
  exact ⟨h1, by rw [h1]; simp [closeSession, h]⟩

theorem close_on_closed_session_noop_witness :
    closeSession ⟨false, false⟩ = (⟨false, false⟩, false) :=
  (close_on_closed_session_noop ⟨false, false⟩ rfl).1

end SS
